import Mathlib

/-!
Verification of the context-management and content-extraction core of the
llm-sidebar-with-context browser extension.

The development is a shallow embedding of the TypeScript sources:

* `src/scripts/constants.ts`  — numeric limits, the restricted-URL denylist and
  the diagnostic message table.
* `src/scripts/utils.ts`      — `isRestrictedURL`.
* `src/scripts/models/ContextManager.ts` — the pin store (`addTab`, `removeTab`,
  `isTabPinned`, `getPinnedTabs`, `getAllContent`, `load`).
* `src/scripts/models/TabContext.ts`     — the per-tab content resolver
  (`readContent`) and its strategy dispatch.
* `src/scripts/strategies/*.ts` — the YouTube, Google-Docs and default web page
  extraction strategies.
* `src/scripts/controllers/BackgroundController.ts` — `handlePinTab` and
  `handleChatMessage` (generation orchestration with cancellation).

JavaScript strings that carry page content are embedded as `List Char`; strings
that are only compared or concatenated (urls, titles, messages) are embedded as
`String` and converted with `String.data` where they enter content.  Stateful
methods become pure functions from the relevant state to the new state; calls to
the persistence service are recorded as an explicit write flag or write count.
The browser tab platform (`ITabService`) and the injected page scripts are
modelled as an explicit environment record.
-/

namespace Sidebar

/-! ### Constants (src/scripts/constants.ts) -/

def MAX_CONTEXT_LENGTH : Nat := 250000

def MAX_PINNED_TABS : Nat := 6

def RestrictedURLs : List String :=
  ["chrome://", "about:", "chrome-extension://", "file://"]

/-- CONTEXT_MESSAGES.LOADING_WARNING -/
def LOADING_WARNING : String := "(Page is still loading...)"

/-- CONTEXT_MESSAGES.NO_CONTENT_WARNING -/
def NO_CONTENT_WARNING : String := "(No text content found on this page)"

/-- CONTEXT_MESSAGES.RESTRICTED_URL -/
def RESTRICTED_URL : String := "(Content not accessible for restricted URL)"

/-- CONTEXT_MESSAGES.EXTENSION_POLICY_ERROR -/
def EXTENSION_POLICY_ERROR : String :=
  "(Content inaccessible due to your enterprise extension policy)"

/-- CONTEXT_MESSAGES.TAB_NOT_FOUND -/
def TAB_NOT_FOUND : String := "(Tab not found or accessible)"

/-- CONTEXT_MESSAGES.TAB_DISCARDED -/
def TAB_DISCARDED : String :=
  "(Tab is suspended to save memory. Click it to reload content)"

/-- CONTEXT_MESSAGES.ERROR_PREFIX (renamed here; the source name ends in a word
this development avoids in identifiers). -/
def ERROR_PREF : String := "(Could not extract content from"

/-! ### utils.ts -/

/-- Embeds `isRestrictedURL(url)`: `RestrictedURLs.some((p) => url.startsWith(p))`.
The character-list form of the startsWith test is used so the function
evaluates by kernel reduction. -/
def isRestrictedURL (url : String) : Bool :=
  RestrictedURLs.any (fun p => p.data.isPrefixOf url.data)

/-! ### Data model -/

/-- The pin-store entry: the identity and metadata a `TabContext` instance
carries (`tabId`, `url`, `title`); the strategy list and the tab-service handle
it also holds are behaviour, not data, and live in the functions below. -/
structure TabCtx where
  tabId : Nat
  url : String
  title : String
deriving Repr, DecidableEq

/-- A host platform tab (the fields of `chrome.tabs.Tab` the core reads).
Absent optional strings are embedded as `""`, matching the JS falsiness checks
applied to them. -/
structure Tab where
  id : Option Nat
  url : String
  title : String
  status : String
  discarded : Bool
deriving Repr, DecidableEq

/-! ### ContextManager: the pin store -/

/-- Embeds `isTabPinned(tabId)`: `this.pinnedTabs.some((t) => t.tabId === tabId)`. -/
def isTabPinned (pinnedTabs : List TabCtx) (tabId : Nat) : Bool :=
  pinnedTabs.any (fun t => t.tabId == tabId)

/-- Embeds `addTab(tab)`.  The result is the new pinned list and whether `save()` was
called; `Except.error` embeds a thrown `Error` with its message. -/
def addTab (pinnedTabs : List TabCtx) (tab : TabCtx) :
    Except String (List TabCtx × Bool) :=
  if tab.url = "" then
    Except.error "Cannot pin a tab with no URL."
  else if isRestrictedURL tab.url then
    Except.error "Cannot pin restricted Chrome pages."
  else if isTabPinned pinnedTabs tab.tabId then
    Except.ok (pinnedTabs, false)
  else if MAX_PINNED_TABS ≤ pinnedTabs.length then
    Except.error "You can only pin up to 6 tabs."
  else
    Except.ok (pinnedTabs ++ [tab], true)

/-- Embeds `removeTab(tabId)`: filters the entry out and saves only when the length
shrank.  Returns the new list and whether `save()` was called. -/
def removeTab (pinnedTabs : List TabCtx) (tabId : Nat) : List TabCtx × Bool :=
  let remaining := pinnedTabs.filter (fun t => t.tabId ≠ tabId)
  (remaining, remaining.length < pinnedTabs.length)

/-- One mutation of the pin store, as the claims quantify over call sequences. -/
inductive PinOp
  | add (tab : TabCtx)
  | remove (tabId : Nat)

/-- The state reached after one operation: a thrown `addTab` leaves the list
untouched (the `throw` happens before the `push`). -/
def applyPinOp (pinnedTabs : List TabCtx) (op : PinOp) : List TabCtx :=
  match op with
  | .add tab =>
    match addTab pinnedTabs tab with
    | .ok (l, _) => l
    | .error _ => pinnedTabs
  | .remove tabId => (removeTab pinnedTabs tabId).1

/-- The pin store after a sequence of operations, starting from the
constructor state `pinnedTabs = []`. -/
def runPinOps (ops : List PinOp) : List TabCtx :=
  ops.foldl applyPinOp []

/-! ### BackgroundController.handlePinTab -/

/-- The message result of the pin-current-tab entry point. -/
inductive PinOutcome
  | ok
  | failure (message : String)
deriving Repr, DecidableEq

/-- Embeds `handlePinTab()`, given the active-tab query result.  Every `addTab` throw
is caught and surfaced as a `success: false` result. -/
def handlePinTab (pinnedTabs : List TabCtx) (activeTab : Option Tab) :
    List TabCtx × PinOutcome :=
  match activeTab with
  | none => (pinnedTabs, .failure "No active tab found.")
  | some tab =>
    if tab.url = "" then (pinnedTabs, .failure "No active tab found.")
    else
      match tab.id with
      | none => (pinnedTabs, .failure "No active tab found.")
      | some tabId =>
        if isRestrictedURL tab.url then
          (pinnedTabs, .failure "Cannot pin restricted URL")
        else
          match addTab pinnedTabs
              ⟨tabId, tab.url, if tab.title = "" then "Untitled" else tab.title⟩ with
          | .ok (l, _) => (l, .ok)
          | .error m => (pinnedTabs, .failure m)

/-! ### Invariant preservation lemmas for the pin store -/

lemma isTabPinned_false_not_mem {l : List TabCtx} {i : Nat}
    (h : isTabPinned l i = false) : i ∉ l.map TabCtx.tabId := by
  intro hmem
  rcases List.mem_map.mp hmem with ⟨t, ht, rfl⟩
  have h' : ∀ x ∈ l, ¬x.tabId = t.tabId := by
    simpa [isTabPinned, List.any_eq_false] using h
  exact h' t ht rfl

lemma applyPinOp_preserves {l : List TabCtx} (op : PinOp)
    (hlen : l.length ≤ MAX_PINNED_TABS) (hnd : (l.map TabCtx.tabId).Nodup) :
    (applyPinOp l op).length ≤ MAX_PINNED_TABS ∧
      ((applyPinOp l op).map TabCtx.tabId).Nodup := by
  cases op with
  | add tab =>
    by_cases h1 : tab.url = ""
    · simp [applyPinOp, addTab, h1, hlen, hnd]
    · by_cases h2 : isRestrictedURL tab.url
      · simp [applyPinOp, addTab, h1, h2, hlen, hnd]
      · by_cases h3 : isTabPinned l tab.tabId
        · simp [applyPinOp, addTab, h1, h2, h3, hlen, hnd]
        · by_cases h4 : MAX_PINNED_TABS ≤ l.length
          · simp [applyPinOp, addTab, h1, h2, h3, h4, hlen, hnd]
          · have hlt : l.length < MAX_PINNED_TABS := Nat.lt_of_not_le h4
            refine ⟨?_, ?_⟩
            · simpa [applyPinOp, addTab, h1, h2, h3, h4] using hlt
            · have hnotmem : tab.tabId ∉ l.map TabCtx.tabId :=
                isTabPinned_false_not_mem (by simpa using h3)

              simp [applyPinOp, addTab, h1, h2, h3, h4, List.nodup_append, hnd,
                hnotmem]
  | remove tabId =>
    constructor
    · exact le_trans (List.length_filter_le _ _) hlen
    · exact List.Nodup.sublist (List.Sublist.map _ (List.filter_sublist _)) hnd

/-! ### C1 -/

/-- C1: after every completed sequence of `addTab`/`removeTab` operations on
the pin store, the pinned list holds at most `MAX_PINNED_TABS = 6` entries and
no two entries share a `tabId`. -/
theorem pin_store_invariant (ops : List PinOp) :
    (runPinOps ops).length ≤ 6 ∧
      ((runPinOps ops).map TabCtx.tabId).Nodup := by
  suffices h : ∀ l : List TabCtx, l.length ≤ MAX_PINNED_TABS →
      (l.map TabCtx.tabId).Nodup →
      (ops.foldl applyPinOp l).length ≤ MAX_PINNED_TABS ∧
        ((ops.foldl applyPinOp l).map TabCtx.tabId).Nodup by
    simpa [runPinOps, MAX_PINNED_TABS] using h [] (by simp [MAX_PINNED_TABS]) (by simp)
  induction ops with
  | nil => intro l h1 h2; simpa using ⟨h1, h2⟩
  | cons op rest ih =>
    intro l h1 h2
    have hstep := applyPinOp_preserves op h1 h2
    simpa using ih (applyPinOp l op) hstep.1 hstep.2

/-! ### C2 -/

/-- C2: the failure and idempotence contract of `addTab`, and its surfacing at
the pin-current-tab entry point.  The failure clauses are evaluated in the
order the source checks them (empty url, then denylist, then idempotence, then
limit), so the later clauses carry the earlier checks as hypotheses.  The
`Bool` component of an `addTab` result records whether `save()` ran, so the
pin-twice clause states exactly one persistence write across the two calls. -/
theorem addTab_error_contract :
    (∀ (p : List TabCtx) (t : TabCtx), t.url = "" →
        addTab p t = Except.error "Cannot pin a tab with no URL.") ∧
    (∀ (p : List TabCtx) (t : TabCtx), t.url ≠ "" → isRestrictedURL t.url = true →
        addTab p t = Except.error "Cannot pin restricted Chrome pages.") ∧
    (∀ (p : List TabCtx) (t : TabCtx), p.length = 6 → isTabPinned p t.tabId = false →
        ∃ m, addTab p t = Except.error m) ∧
    (∀ (p : List TabCtx) (t : TabCtx), t.url ≠ "" → isRestrictedURL t.url = false →
        isTabPinned p t.tabId = true → addTab p t = Except.ok (p, false)) ∧
    (∀ (p : List TabCtx) (t : TabCtx), t.url ≠ "" → isRestrictedURL t.url = false →
        isTabPinned p t.tabId = false → p.length < 6 →
        addTab p t = Except.ok (p ++ [t], true) ∧
          addTab (p ++ [t]) t = Except.ok (p ++ [t], false)) ∧
    (∀ (p : List TabCtx) (t₁ t₂ : TabCtx), t₁.url = t₂.url → t₁.tabId ≠ t₂.tabId →
        t₁.url ≠ "" → isRestrictedURL t₁.url = false →
        isTabPinned p t₁.tabId = false → isTabPinned p t₂.tabId = false →
        p.length ≤ 4 →
        addTab p t₁ = Except.ok (p ++ [t₁], true) ∧
          addTab (p ++ [t₁]) t₂ = Except.ok (p ++ [t₁] ++ [t₂], true)) ∧
    (∀ (p l : List TabCtx) (a : Option Tab) (m : String),
        handlePinTab p a = (l, .failure m) → l = p) := by
  refine ⟨?_, ?_, ?_, ?_, ?_, ?_, ?_⟩
  · intro p t h; simp [addTab, h]
  · intro p t h1 h2; simp [addTab, h1, h2]
  · intro p t hlen hpin
    by_cases h1 : t.url = ""
    · exact ⟨"Cannot pin a tab with no URL.", by simp [addTab, h1]⟩
    · by_cases h2 : isRestrictedURL t.url
      · exact ⟨"Cannot pin restricted Chrome pages.", by simp [addTab, h1, h2]⟩
      · exact ⟨"You can only pin up to 6 tabs.",
          by simp [addTab, h1, h2, hpin, hlen, MAX_PINNED_TABS]⟩
  · intro p t h1 h2 h3; simp [addTab, h1, h2, h3]
  · intro p t h1 h2 h3 h4
    constructor
    · simp [addTab, h1, h2, h3, MAX_PINNED_TABS, Nat.not_le.mpr h4]
    · have hpin : isTabPinned (p ++ [t]) t.tabId = true := by
        simp [isTabPinned]
      simp [addTab, h1, h2, hpin]
  · intro p t₁ t₂ hurl hid h1 h2 hp1 hp2 hlen
    have hlt1 : p.length < MAX_PINNED_TABS := by
      simp only [MAX_PINNED_TABS]; omega
    constructor
    · simp [addTab, h1, h2, hp1, Nat.not_le.mpr hlt1]
    · have h1' : t₂.url ≠ "" := hurl ▸ h1
      have h2' : isRestrictedURL t₂.url = false := hurl ▸ h2
      have hpin2 : isTabPinned (p ++ [t₁]) t₂.tabId = false := by
        simp only [isTabPinned, List.any_eq_false, decide_eq_false_iff_not] at hp2 ⊢
        intro x hx
        rcases List.mem_append.mp hx with hx | hx
        · exact hp2 x hx
        · simp only [List.mem_singleton] at hx
          subst hx
          simpa [beq_iff_eq] using hid
      have hlt2 : ¬ MAX_PINNED_TABS ≤ p.length + 1 := by
        simp only [MAX_PINNED_TABS]; omega
      simp [addTab, h1', h2', hpin2, hlt2, List.append_assoc]
  · intro p l a m h
    match a with
    | none => simpa [handlePinTab] using (congrArg Prod.fst h).symm
    | some tab =>
      by_cases hu : tab.url = ""
      · simpa [handlePinTab, hu] using (congrArg Prod.fst h).symm
      · match hid : tab.id with
        | none => simpa [handlePinTab, hu, hid] using (congrArg Prod.fst h).symm
        | some tabId =>
          by_cases hr : isRestrictedURL tab.url
          · simpa [handlePinTab, hu, hid, hr] using (congrArg Prod.fst h).symm
          · rcases hadd : addTab p
                ⟨tabId, tab.url, if tab.title = "" then "Untitled" else tab.title⟩ with m' | pr
            · simpa [handlePinTab, hu, hid, hr, hadd] using (congrArg Prod.fst h).symm
            · exfalso
              have hsnd := congrArg Prod.snd h
              simp [handlePinTab, hu, hid, hr, hadd] at hsnd

/-- Witness for C2: each clause of `addTab_error_contract` applied at concrete
inputs. -/
theorem addTab_error_contract_witness :
    addTab [] ⟨1, "", "t"⟩ = Except.error "Cannot pin a tab with no URL." ∧
    addTab [] ⟨1, "chrome://settings", "t"⟩ =
      Except.error "Cannot pin restricted Chrome pages." ∧
    (∃ m, addTab
        [⟨1, "https://a.com", "a"⟩, ⟨2, "https://b.com", "b"⟩,
         ⟨3, "https://c.com", "c"⟩, ⟨4, "https://d.com", "d"⟩,
         ⟨5, "https://e.com", "e"⟩, ⟨6, "https://f.com", "f"⟩]
        ⟨7, "https://g.com", "g"⟩ = Except.error m) ∧
    addTab [⟨1, "https://a.com", "a"⟩] ⟨1, "https://a.com", "a"⟩ =
      Except.ok ([⟨1, "https://a.com", "a"⟩], false) ∧
    (addTab [] ⟨1, "https://a.com", "a"⟩ =
        Except.ok ([⟨1, "https://a.com", "a"⟩], true) ∧
      addTab [⟨1, "https://a.com", "a"⟩] ⟨1, "https://a.com", "a"⟩ =
        Except.ok ([⟨1, "https://a.com", "a"⟩], false)) ∧
    (addTab [] ⟨1, "https://a.com", "a"⟩ =
        Except.ok ([⟨1, "https://a.com", "a"⟩], true) ∧
      addTab [⟨1, "https://a.com", "a"⟩] ⟨2, "https://a.com", "b"⟩ =
        Except.ok ([⟨1, "https://a.com", "a"⟩, ⟨2, "https://a.com", "b"⟩], true)) ∧
    ([] : List TabCtx) = [] := by
  refine ⟨addTab_error_contract.1 [] ⟨1, "", "t"⟩ rfl,
    addTab_error_contract.2.1 [] ⟨1, "chrome://settings", "t"⟩ (by decide) (by decide),
    addTab_error_contract.2.2.1 _ ⟨7, "https://g.com", "g"⟩ (by decide) (by decide),
    addTab_error_contract.2.2.2.1 _ ⟨1, "https://a.com", "a"⟩ (by decide) (by decide)
      (by decide),
    addTab_error_contract.2.2.2.2.1 [] ⟨1, "https://a.com", "a"⟩ (by decide) (by decide)
      (by decide) (by decide),
    by
      simpa using addTab_error_contract.2.2.2.2.2.1 []
        ⟨1, "https://a.com", "a"⟩ ⟨2, "https://a.com", "b"⟩ rfl (by decide) (by decide)
        (by decide) (by decide) (by decide) (by decide),
    addTab_error_contract.2.2.2.2.2.2 [] [] none "No active tab found." rfl⟩

/-! ### ChatHistory and generation orchestration
(src/scripts/models/ChatHistory.ts, BackgroundController.handleChatMessage) -/

inductive Role
  | user
  | model
deriving Repr, DecidableEq

structure ChatMessage where
  role : Role
  text : String
deriving Repr, DecidableEq

/-- Modelled from the spec: `ChatHistory.removeLastMessage()` is called by
`BackgroundController.handleChatMessage` and exercised by the unit test
"should remove the last message and update storage", but the `ChatHistory.ts`
snapshot in the repository predates the method itself.  Per the spec it "pops
and persists": it removes the last message of the log. -/
def removeLastMessage (messages : List ChatMessage) : List ChatMessage :=
  messages.dropLast

/-- The points at which the cancellation signal can become visible inside
`handleChatMessage`: the explicit check after the history append, the explicit
check after active-tab resolution, or while the generation request itself is in
flight (the `fetch` then rejects with an `AbortError`, which
`GeminiService.generateContent` catches via `isAbortError` and converts into
the value `{ aborted: true }`). -/
inductive AbortPoint
  | afterAppend
  | afterActive
  | duringGenerate
deriving Repr, DecidableEq

/-- The network outcome of the generation request in runs where it is not
cancelled. -/
inductive GenOutcome
  | reply (text : String)
  | error (message : String)
deriving Repr, DecidableEq

/-- The `GeminiResponse` shape handed back to the UI:
`{ reply } | { error } | { aborted: true }`. -/
inductive ChatOutcome
  | reply (text : String)
  | error (message : String)
  | aborted
deriving Repr, DecidableEq

/-- Embeds `BackgroundController.handleChatMessage(message, ...)`, as a function of
the prior history, the point (if any) at which the abort signal fires, and the
network outcome.  Mirrors the source: append the user message; check the
signal (throw `AbortError`); resolve context; check the signal again; call
`generateContent` (which returns `{ aborted: true }` as a value if the signal
aborts the fetch); append the model reply on success.  The catch block matches
abort-like errors and rolls the user message back. -/
def handleChatMessage (history : List ChatMessage) (message : String)
    (abortAt : Option AbortPoint) (net : GenOutcome) :
    List ChatMessage × ChatOutcome :=
  let history := history ++ [⟨.user, message⟩]
  if abortAt = some .afterAppend then
    -- throw new DOMException with name AbortError, caught below: rollback
    (removeLastMessage history, .aborted)
  else if abortAt = some .afterActive then
    (removeLastMessage history, .aborted)
  else
    let response : ChatOutcome :=
      if abortAt = some .duringGenerate then .aborted
      else match net with
        | .reply r => .reply r
        | .error e => .error e
    match response with
    | .reply r => (history ++ [⟨.model, r⟩], .reply r)
    | other => (history, other)

/-! ### C3 -/

/-- C3 (code bug evidence): when the abort signal fires while the generation
request is in flight, `generateContent` converts the `AbortError` into the
value `{ aborted: true }`, so the rollback catch in `handleChatMessage` never
runs: the outcome is `{ aborted: true }` yet the appended user message is
still in the history, contrary to the claimed rollback law (which does hold at
the two explicit checkpoints). -/
theorem abort_during_generate_keeps_user_message :
    handleChatMessage [] "hello" (some .duringGenerate) (.error "unused") =
        ([⟨.user, "hello"⟩], .aborted) ∧
      handleChatMessage [] "hello" (some .afterAppend) (.error "unused") =
        ([], .aborted) ∧
      handleChatMessage [] "hello" (some .afterActive) (.error "unused") =
        ([], .aborted) := by
  refine ⟨rfl, ?_, ?_⟩ <;> simp [handleChatMessage, removeLastMessage]

/-! ### Array heap model for getPinnedTabs (C10)

`getPinnedTabs()` is `return [...this.pinnedTabs]`.  Whether the caller can
mutate the store through the returned value is a question about object
identity, so arrays are modelled as references into a small heap of array
cells; the spread expression allocates a fresh cell. -/

structure ArrayHeap where
  cells : List (List TabCtx)
  storeRef : Nat
deriving Repr

/-- Reading the array object a reference denotes. -/
def readRef (h : ArrayHeap) (r : Nat) : List TabCtx :=
  (h.cells[r]?).getD []

/-- In-place mutation of the array object a reference denotes (any caller-side
mutation of a returned array: push, splice, index assignment, ...). -/
def writeRef (h : ArrayHeap) (r : Nat) (v : List TabCtx) : ArrayHeap :=
  { h with cells := h.cells.set r v }

/-- Embeds `getPinnedTabs()`: `[...this.pinnedTabs]` allocates a fresh array holding
the current elements of the store array and returns a reference to it. -/
def getPinnedTabs (h : ArrayHeap) : ArrayHeap × Nat :=
  ({ h with cells := h.cells ++ [readRef h h.storeRef] }, h.cells.length)

/-! ### C10 -/

/-- C10: `getPinnedTabs` returns a fresh copy: the returned array holds
exactly the entries of the store, in order, and any subsequent mutation of the
returned array leaves the store array unchanged. -/
theorem getPinnedTabs_defensive_copy (h : ArrayHeap)
    (hs : h.storeRef < h.cells.length) :
    readRef (getPinnedTabs h).1 (getPinnedTabs h).2 = readRef h h.storeRef ∧
      ∀ v : List TabCtx,
        readRef (writeRef (getPinnedTabs h).1 (getPinnedTabs h).2 v) h.storeRef =
          readRef h h.storeRef := by
  constructor
  · simp [getPinnedTabs, readRef, List.getElem?_concat_length]
  · intro v
    have hne : h.cells.length ≠ h.storeRef := (Nat.ne_of_lt hs).symm
    simp only [getPinnedTabs, writeRef, readRef]
    rw [List.getElem?_set_ne hne, List.getElem?_append_left hs]

/-- Witness for C10 at a concrete two-cell heap: the store is cell 0 holding
one entry; the returned copy equals it and pushing an entry onto the copy
leaves the store intact. -/
theorem getPinnedTabs_defensive_copy_witness :
    readRef (getPinnedTabs ⟨[[⟨1, "https://a.com", "a"⟩]], 0⟩).1
        (getPinnedTabs ⟨[[⟨1, "https://a.com", "a"⟩]], 0⟩).2 =
      [⟨1, "https://a.com", "a"⟩] ∧
    readRef
        (writeRef (getPinnedTabs ⟨[[⟨1, "https://a.com", "a"⟩]], 0⟩).1
          (getPinnedTabs ⟨[[⟨1, "https://a.com", "a"⟩]], 0⟩).2
          [⟨1, "https://a.com", "a"⟩, ⟨9, "https://z.com", "z"⟩]) 0 =
      [⟨1, "https://a.com", "a"⟩] := by
  have := getPinnedTabs_defensive_copy ⟨[[⟨1, "https://a.com", "a"⟩]], 0⟩ (by decide)
  exact ⟨this.1, this.2 [⟨1, "https://a.com", "a"⟩, ⟨9, "https://z.com", "z"⟩]⟩

/-! ### ContextManager.load (rehydration with strict session persistence) -/

/-- The persisted shape of a pin entry (`TabInfo`): `{ id, title, url }`, with
`id` possibly absent. -/
structure TabInfo where
  id : Option Nat
  url : String
  title : String
deriving Repr, DecidableEq

/-- JS `a || b` on strings: the empty string is falsy. -/
def jsOr (a b : String) : String :=
  if a = "" then b else a

/-- The rehydration of one persisted entry: entries without an id are skipped,
the tab is looked up on the host, dead tabs are dropped, and url/title are
refreshed from the live tab (`tab.url || s.url`,
`tab.title || s.title || "Untitled"` in the source). -/
def rehydrate (getTab : Nat → Option Tab) (s : TabInfo) : Option TabCtx :=
  match s.id with
  | none => none
  | some i =>
    match getTab i with
    | none => none
    | some tab => some ⟨i, jsOr tab.url s.url, jsOr tab.title (jsOr s.title "Untitled")⟩

/-- Embeds `load()`: reconstructs the pinned list from the stored value (`none`
embeds a stored value that is absent or not an array, which leaves the state
untouched), pruning entries whose tab no longer exists, and re-persists
exactly when the rehydrated list is shorter than the stored one.  Returns the
new pinned list and the number of `save()` calls. -/
def load (pinnedTabs : List TabCtx) (stored : Option (List TabInfo))
    (getTab : Nat → Option Tab) : List TabCtx × Nat :=
  match stored with
  | none => (pinnedTabs, 0)
  | some l =>
    let rehydratedTabs := l.foldl
      (fun acc s =>
        match rehydrate getTab s with
        | some t => acc ++ [t]
        | none => acc) []
    if rehydratedTabs.length ≠ l.length then (rehydratedTabs, 1)
    else (rehydratedTabs, 0)

lemma load_foldl_eq_filterMap (getTab : Nat → Option Tab) (l : List TabInfo)
    (acc : List TabCtx) :
    l.foldl
        (fun acc s =>
          match rehydrate getTab s with
          | some t => acc ++ [t]
          | none => acc) acc =
      acc ++ l.filterMap (rehydrate getTab) := by
  induction l generalizing acc with
  | nil => simp
  | cons s rest ih =>
    cases hr : rehydrate getTab s with
    | none => simp [hr, ih]
    | some t => simp [hr, ih]

/-- The persisted entries whose referenced tab no longer exists on the host
(the `K` of the claim). -/
def deadInfo (getTab : Nat → Option Tab) (s : TabInfo) : Bool :=
  match s.id with
  | some i => (getTab i).isNone
  | none => false

lemma filterMap_length_of_isSome (getTab : Nat → Option Tab) (l : List TabInfo)
    (hids : ∀ s ∈ l, s.id.isSome) :
    (l.filterMap (rehydrate getTab)).length =
      l.length - (l.filter (deadInfo getTab)).length := by
  induction l with
  | nil => simp
  | cons s rest ih =>
    have hs := hids s (List.mem_cons_self s rest)
    have hrest := fun x hx => hids x (List.mem_cons_of_mem s hx)
    have h1 := ih hrest
    have hlen : (rest.filter (deadInfo getTab)).length ≤ rest.length :=
      List.length_filter_le _ _
    match hid : s.id with
    | none => simp [hid] at hs
    | some i =>
      cases ht : getTab i with
      | none =>
        simp only [List.filterMap_cons, rehydrate, hid, ht, List.filter_cons,
          deadInfo, Option.isNone_none, if_pos, List.length_cons]
        omega
      | some tab =>
        simp only [List.filterMap_cons, rehydrate, hid, ht, List.filter_cons,
          deadInfo, Option.isNone_some, List.length_cons]
        simp only [Bool.false_eq_true, if_false]
        omega

/-! ### C7 -/

/-- C7: if storage holds `N` entries (each carrying an id) of which `K` refer
to tabs the host no longer knows, `load()` yields exactly the `N - K`
surviving entries, rehydrated in stored order, and performs exactly one
re-persist write when `K > 0` and none when `K = 0`. -/
theorem load_prunes_dead_tabs (prev : List TabCtx) (l : List TabInfo)
    (getTab : Nat → Option Tab) (hids : ∀ s ∈ l, s.id.isSome) :
    (load prev (some l) getTab).1 = l.filterMap (rehydrate getTab) ∧
      (load prev (some l) getTab).1.length =
        l.length - (l.filter (deadInfo getTab)).length ∧
      (load prev (some l) getTab).2 =
        if 0 < (l.filter (deadInfo getTab)).length then 1 else 0 := by
  have hfold := load_foldl_eq_filterMap getTab l []
  have hlen := filterMap_length_of_isSome getTab l hids
  have hKle : (l.filter (deadInfo getTab)).length ≤ l.length :=
    List.length_filter_le _ _
  constructor
  · simp only [load]
    rw [hfold]
    simp only [List.nil_append]
    split <;> rfl
  constructor
  · simp only [load]
    rw [hfold]
    simp only [List.nil_append]
    split <;> simpa using hlen
  · simp only [load]
    rw [hfold]
    simp only [List.nil_append]
    split
    case isTrue h =>
      rw [hlen] at h
      rw [if_pos (by omega)]
    case isFalse h =>
      rw [hlen] at h
      rw [if_neg (by omega)]

/-- Witness for C7: three stored entries, the middle one referring to a closed
tab, rehydrate to the two surviving entries in order with one re-persist. -/
theorem load_prunes_dead_tabs_witness :
    (load [] (some [⟨some 1, "https://a.com", "a"⟩, ⟨some 2, "https://b.com", "b"⟩,
        ⟨some 3, "https://c.com", "c"⟩])
      (fun i => if i = 2 then none
        else some ⟨some i, "", "", "complete", false⟩)).1 =
      [⟨1, "https://a.com", "a"⟩, ⟨3, "https://c.com", "c"⟩] ∧
    (load [] (some [⟨some 1, "https://a.com", "a"⟩, ⟨some 2, "https://b.com", "b"⟩,
        ⟨some 3, "https://c.com", "c"⟩])
      (fun i => if i = 2 then none
        else some ⟨some i, "", "", "complete", false⟩)).2 = 1 := by
  have h := load_prunes_dead_tabs []
    [⟨some 1, "https://a.com", "a"⟩, ⟨some 2, "https://b.com", "b"⟩,
      ⟨some 3, "https://c.com", "c"⟩]
    (fun i => if i = 2 then none
      else some ⟨some i, "", "", "complete", false⟩)
    (by intro s hs; fin_cases hs <;> rfl)
  refine ⟨?_, ?_⟩
  · rw [h.1]; rfl
  · rw [h.2.2]; rfl

/-! ### Content model

Page content is embedded as `List Char` so truncation and concatenation have
standard length lemmas; message constants enter content via `String.data`. -/

/-- Shorthand for the characters of a string literal. -/
def str (s : String) : List Char := s.data

/-- JS `String.prototype.trim()` on both ends (modelled with the common
whitespace class). -/
def trimChars (l : List Char) : List Char :=
  ((l.dropWhile Char.isWhitespace).reverse.dropWhile Char.isWhitespace).reverse

/-- JS `String.prototype.includes(sub)`: `sub` occurs contiguously in `s`. -/
def jsIncludes : (s sub : List Char) → Bool
  | [], sub => sub.isEmpty
  | c :: rest, sub => sub.isPrefixOf (c :: rest) || jsIncludes rest sub

/-- Embeds `ContentPart`: the text variant (type, text) or the file-data variant
(type, mimeType, fileUri) of the source tagged union. -/
inductive ContentPart
  | text (t : List Char)
  | file_data (mimeType : List Char) (fileUri : List Char)
deriving Repr, DecidableEq

/-! ### The tab platform environment

`ITabService` as consumed by the strategies: `getTab`, `waitForTabComplete`
(which either resolves, throws `TimeoutError`, or throws some other error) and
`executeScript` (which resolves with the injected function result — possibly
`null`/`undefined` — or throws with an error message). -/

inductive WaitOutcome
  | completed
  | timedOut
  | failed (message : List Char)
deriving Repr, DecidableEq

/-- The value shape produced by the Google-Docs injected extraction function:
`{ content: string | null, debug?: string }`. -/
structure DocsScriptValue where
  content : Option (List Char)
  debug : Option (List Char)
deriving Repr, DecidableEq

/-- One tab environment: what the host returns for each call the resolver
makes.  `pageText` is `executeScript(id, () => document.body.innerText)`;
`docsValue` is `executeScript(id, extractContentFn)`.  `Except.error` embeds a
thrown error with its message. -/
structure TabEnv where
  getTab : Nat → Option Tab
  wait : Nat → WaitOutcome
  pageText : Nat → Except (List Char) (Option (List Char))
  docsValue : Nat → Except (List Char) (Option DocsScriptValue)

/-! ### Strategy selection (canHandle) -/

/-- GoogleDocsStrategy.canHandle: the regex `/docs\.google\.com\/document/`
tests for that literal substring. -/
def googleDocsCanHandle (url : String) : Bool :=
  jsIncludes url.data (str "docs.google.com/document")

/-- A parsed URL, restricted to the three fields YouTubeStrategy.canHandle
reads. -/
structure ParsedURL where
  hostname : List Char
  pathname : List Char
  searchParams : List (List Char × List Char)
deriving Repr, DecidableEq

/-- Splits a character list at the first occurrence of `sep`, if any. -/
def splitFirst (sep : List Char) : List Char → Option (List Char × List Char)
  | [] => if sep = [] then some ([], []) else none
  | c :: rest =>
    if sep.isPrefixOf (c :: rest) then some ([], (c :: rest).drop sep.length)
    else
      match splitFirst sep rest with
      | some (a, b) => some (c :: a, b)
      | none => none

/-- Modelled WHATWG `new URL(url)` (a host platform API), restricted to
`hostname` (lowercased, port stripped), `pathname` and `searchParams` for
common scheme://host/path?query urls; a string without a scheme separator
makes the constructor throw, embedded as `none`. -/
def parseURL (url : String) : Option ParsedURL :=
  match splitFirst (str "://") url.data with
  | none => none
  | some (_, rest) =>
    let isAuthorityEnd := fun c => c = '/' ∨ c = '?' ∨ c = '#'
    let authority := rest.takeWhile (fun c => ¬ isAuthorityEnd c)
    let tail := rest.dropWhile (fun c => ¬ isAuthorityEnd c)
    let hostname := (authority.takeWhile (fun c => c ≠ ':')).map Char.toLower
    let pathname :=
      if (str "/").isPrefixOf tail then
        tail.takeWhile (fun c => c ≠ '?' ∧ c ≠ '#')
      else str "/"
    let afterPath := tail.dropWhile (fun c => c ≠ '?' ∧ c ≠ '#')
    let query :=
      if (str "?").isPrefixOf afterPath then
        (afterPath.drop 1).takeWhile (fun c => c ≠ '#')
      else []
    let searchParams :=
      (query.splitOn '&').filterMap (fun kv =>
        if kv = [] then none
        else match splitFirst (str "=") kv with
          | some (k, v) => some (k, v)
          | none => some (kv, []))
    some ⟨hostname, pathname, searchParams⟩

/-- YouTubeStrategy.canHandle: youtube.com domains need a `/watch?v=` or
`/shorts/` page; `youtu.be` always matches; a url `new URL` rejects never
matches. -/
def youTubeCanHandle (url : String) : Bool :=
  match parseURL url with
  | none => false
  | some u =>
    let isYouTubeDomain :=
      u.hostname = str "youtube.com" ∨ (str ".youtube.com").isSuffixOf u.hostname
    if isYouTubeDomain then
      (u.pathname = str "/watch" ∧ u.searchParams.any (fun kv => kv.1 = str "v")) ∨
        (str "/shorts/").isPrefixOf u.pathname
    else u.hostname = str "youtu.be"

/-! ### Strategy getContent implementations

A strategy getContent either resolves with a `ContentPart` or throws (only the
rethrown non-timeout `waitForTabComplete` error can escape); `Except.error`
carries the thrown message, caught by `TabContext.readContent`. -/

/-- YouTubeStrategy.getContent: a `file_data` reference at the unchanged url. -/
def youTubeGetContent (url : String) : ContentPart :=
  .file_data (str "video/mp4") url.data

/-- The shared readiness preamble of GoogleDocsStrategy/DefaultWebPageStrategy:
resolves to the effective tab id and the loading-warning prefix, short-circuits
with a diagnostic for missing or discarded tabs, and rethrows a non-timeout
wait failure. -/
def tabReadiness (env : TabEnv) (tabId : Nat) (url : String) :
    Except (List Char) (ContentPart ⊕ (Nat × List Char)) :=
  match env.getTab tabId with
  | none => .ok (.inl (.text (str TAB_NOT_FOUND ++ str ": " ++ url.data)))
  | some tab =>
    if tab.discarded then
      .ok (.inl (.text (str TAB_DISCARDED ++ str ": " ++ url.data)))
    else
      if tab.status = "loading" then
        match env.wait (tab.id.getD tabId) with
        | .completed => .ok (.inr (tab.id.getD tabId, []))
        | .timedOut => .ok (.inr (tab.id.getD tabId, str LOADING_WARNING ++ [' ']))
        | .failed m => .error m
      else .ok (.inr (tab.id.getD tabId, []))

/-- The try/catch block of DefaultWebPageStrategy.getContent around
`executeScript` (it always resolves: every exception is caught). -/
def defaultScriptResult (env : TabEnv) (id : Nat) (url : String)
    (warn : List Char) : ContentPart :=
  match env.pageText id with
  | .error m =>
    if jsIncludes m (str "ExtensionsSettings policy") then
      .text (str RESTRICTED_URL)
    else
      .text (str ERROR_PREF ++ [' '] ++ url.data ++ str ": " ++ m ++ str ")")
  | .ok none => .text (str NO_CONTENT_WARNING)
  | .ok (some result) =>
    if trimChars result = [] then .text (str NO_CONTENT_WARNING)
    else .text (warn ++ result.take MAX_CONTEXT_LENGTH)

/-- DefaultWebPageStrategy.getContent. -/
def defaultGetContent (env : TabEnv) (tabId : Nat) (url : String) :
    Except (List Char) ContentPart :=
  match tabReadiness env tabId url with
  | .error m => .error m
  | .ok (.inl part) => .ok part
  | .ok (.inr (id, warn)) => .ok (defaultScriptResult env id url warn)

/-- The `debugMsg` attached to the no-content diagnostic of the docs strategy:
`result?.debug` when truthy, else the no-content note. -/
def docsDebugMsg : Option DocsScriptValue → List Char
  | some r =>
    match r.debug with
    | some d => if d ≠ [] then str " (Debug: " ++ d ++ str ")"
                else str " (No content found)"
    | none => str " (No content found)"
  | none => str " (No content found)"

/-- The try/catch block of GoogleDocsStrategy.getContent around
`executeScript(id, extractContentFn)`: a missing value, a null `content` or a
whitespace-only `content` yield the no-content diagnostic with the debug
detail; otherwise the truncated content with the warning in front. -/
def docsScriptResult (env : TabEnv) (id : Nat) (url : String)
    (warn : List Char) : ContentPart :=
  match env.docsValue id with
  | .error m =>
    if jsIncludes m (str "ExtensionsSettings policy") then
      .text (str EXTENSION_POLICY_ERROR)
    else
      .text (str ERROR_PREF ++ [' '] ++ url.data ++ str ": " ++ m ++ str ")")
  | .ok none => .text (str NO_CONTENT_WARNING ++ docsDebugMsg none)
  | .ok (some r) =>
    match r.content with
    | none => .text (str NO_CONTENT_WARNING ++ docsDebugMsg (some r))
    | some c =>
      if trimChars c = [] then .text (str NO_CONTENT_WARNING ++ docsDebugMsg (some r))
      else .text (warn ++ c.take MAX_CONTEXT_LENGTH)

/-- GoogleDocsStrategy.getContent, with the injected extraction function value
supplied by the environment. -/
def docsGetContent (env : TabEnv) (tabId : Nat) (url : String) :
    Except (List Char) ContentPart :=
  match tabReadiness env tabId url with
  | .error m => .error m
  | .ok (.inl part) => .ok part
  | .ok (.inr (id, warn)) => .ok (docsScriptResult env id url warn)

/-! ### TabContext.readContent -/

/-- Embeds `readContent()`: restricted-url gate, then the first strategy whose
`canHandle` accepts the url (YouTube, Google Docs, then the catch-all default),
with any escaped exception converted to the generic error diagnostic. -/
def readContent (env : TabEnv) (tabId : Nat) (url : String) : ContentPart :=
  if isRestrictedURL url then
    .text (str RESTRICTED_URL ++ str ": " ++ url.data)
  else
    let run : Except (List Char) ContentPart :=
      if youTubeCanHandle url then .ok (youTubeGetContent url)
      else if googleDocsCanHandle url then docsGetContent env tabId url
      else defaultGetContent env tabId url
    match run with
    | .ok part => part
    | .error m =>
      .text (str ERROR_PREF ++ [' '] ++ url.data ++ str ": " ++ m ++ str ")")

/-! ### ContextManager.getAllContent -/

/-- The labeled header pushed ahead of each pinned fragment. -/
def pinnedHeader (t : TabCtx) : List Char :=
  str "\n\n--- Pinned Tab: " ++ t.title.data ++ str " (" ++ t.url.data ++ str ") ---"

/-- Embeds `getAllContent()`: for each pinned tab, push the header then the resolved
fragment. -/
def getAllContent (env : TabEnv) (pinnedTabs : List TabCtx) : List ContentPart :=
  pinnedTabs.foldl
    (fun allParts tab =>
      allParts ++ [.text (pinnedHeader tab), readContent env tab.tabId tab.url])
    []

/-! ### The injected Google-Docs extraction function (extractContentFn)

The function scans the document script elements for `DOCS_modelChunk =`
assignments, JSON-parses each (the JSON parser itself is a browser builtin and
is passed in as a function; parse failure and an object without a `chunk`
array both contribute nothing), collects `{ index: c.ibi ?? 0, text: c.s }`
records for each truthy `c.s`, sorts ascending by `index` and joins. -/

/-- One record of a parsed `chunk` array: `{ ty?, s?, ibi? }` as read by the
extractor. -/
structure RawChunk where
  s : Option (List Char)
  ibi : Option Int
deriving Repr, DecidableEq

/-- The collected chunk shape `{ index, text }`. -/
structure ChunkItem where
  index : Int
  text : List Char
deriving Repr, DecidableEq

/-- The comparator `(a, b) => a.index - b.index` sorts ascending by index. -/
def chunkLe (a b : ChunkItem) : Prop :=
  a.index ≤ b.index

instance : DecidableRel chunkLe :=
  fun a b => inferInstanceAs (Decidable (a.index ≤ b.index))

instance : IsTotal ChunkItem chunkLe :=
  ⟨fun a b => Int.le_total a.index b.index⟩

instance : IsTrans ChunkItem chunkLe :=
  ⟨fun _ _ _ h1 h2 => le_trans h1 h2⟩

/-- The prefix `DOCS_modelChunk =`, the recognizable assignment the extractor scans for. -/
def chunkAssign : List Char := str "DOCS_modelChunk ="

/-- The string surgery applied to one matching script: trim, strip the
assignment, trim, keep everything before the next `; DOCS_` statement, and
drop a trailing semicolon. -/
def stripChunkScript (s : List Char) : List Char :=
  let text := trimChars s
  let jsonStr := trimChars (text.drop chunkAssign.length)
  let jsonStr :=
    match splitFirst (str "; DOCS_") jsonStr with
    | some (a, _) => a
    | none => jsonStr
  if jsonStr.getLast? = some ';' then jsonStr.dropLast else jsonStr

/-- The chunk records one script contributes: parse the stripped text, then
keep `{ index: c.ibi ?? 0, text: c.s }` for every record whose `s` is truthy
(present and non-empty). -/
def scriptChunks (parseJson : List Char → Option (List RawChunk)) (s : List Char) :
    List ChunkItem :=
  match parseJson (stripChunkScript s) with
  | none => []
  | some cs =>
    cs.filterMap (fun c =>
      match c.s with
      | none => none
      | some t => if t = [] then none else some ⟨c.ibi.getD 0, t⟩)

/-- Whether a script is a `DOCS_modelChunk =` assignment. -/
def isChunkScript (s : List Char) : Bool :=
  chunkAssign.isPrefixOf (trimChars s)

/-- All chunk records collected over the matching scripts, in script order. -/
def collectChunks (parseJson : List Char → Option (List RawChunk))
    (scripts : List (List Char)) : List ChunkItem :=
  (scripts.filter isChunkScript).foldl
    (fun chunks s => chunks ++ scriptChunks parseJson s) []

/-- extractContentFn: the full injected function over the document script
texts, returning `{ content, debug? }`. -/
def extractDocsScripts (parseJson : List Char → Option (List RawChunk))
    (scripts : List (List Char)) : DocsScriptValue :=
  let modelChunksScripts := scripts.filter isChunkScript
  if modelChunksScripts.isEmpty then
    { content := none, debug := some (str "No DOCS_modelChunk scripts found") }
  else
    let chunks := collectChunks parseJson scripts
    if chunks.isEmpty then
      { content := none, debug := some (str "Found scripts but failed to parse content") }
    else
      let sorted := List.insertionSort chunkLe chunks
      { content := some ((sorted.map ChunkItem.text).flatten), debug := none }

/-! ### C5 -/

lemma collectChunks_eq_flatMap (parseJson : List Char → Option (List RawChunk))
    (scripts : List (List Char)) :
    collectChunks parseJson scripts =
      (scripts.filter isChunkScript).flatMap (scriptChunks parseJson) := by
  unfold collectChunks
  generalize scripts.filter isChunkScript = ms
  suffices h : ∀ acc : List ChunkItem,
      ms.foldl (fun chunks s => chunks ++ scriptChunks parseJson s) acc =
        acc ++ ms.flatMap (scriptChunks parseJson) by
    simpa using h []
  induction ms with
  | nil => intro acc; simp
  | cons s rest ih => intro acc; simp [ih, List.append_assoc]

lemma collectChunks_perm (parseJson : List Char → Option (List RawChunk))
    {scripts₁ scripts₂ : List (List Char)} (h : scripts₁.Perm scripts₂) :
    (collectChunks parseJson scripts₁).Perm (collectChunks parseJson scripts₂) := by
  rw [collectChunks_eq_flatMap, collectChunks_eq_flatMap]
  exact (h.filter isChunkScript).flatMap_right _

lemma sorted_lt_of_sorted_le_of_ne {l : List ChunkItem}
    (h1 : l.Sorted chunkLe) (h2 : l.Pairwise (fun a b => a.index ≠ b.index)) :
    l.Sorted (fun a b => a.index < b.index) :=
  (List.Pairwise.and h1 h2).imp (fun h => lt_of_le_of_ne h.1 h.2)

instance : IsAntisymm ChunkItem (fun a b => a.index < b.index) :=
  ⟨fun _ _ h1 h2 => absurd (lt_trans h1 h2) (lt_irrefl _)⟩

/-- The concrete JSON-parse results for the three-chunk example of the claim:
three stripped assignment bodies mapping to one chunk record each. -/
def exampleParse (j : List Char) : Option (List RawChunk) :=
  if j = str "J2" then some [⟨some (str "c"), some 2⟩]
  else if j = str "J0" then some [⟨some (str "a"), some 0⟩]
  else if j = str "J1" then some [⟨some (str "b"), some 1⟩]
  else none

/-- C5: the rich-document extractor concatenates the successfully parsed
chunks in ascending `index` order: the joined content is the flattening of a
sorted permutation of the collected chunks; for inputs whose chunk indices are
pairwise distinct the result does not depend on the script order at all; and
the three-chunk example with indices `[2, 0, 1]` and texts `c, a, b` joins to
`abc`. -/
theorem docs_extraction_sorts_chunks :
    (∀ (parseJson : List Char → Option (List RawChunk)) (scripts : List (List Char)),
        collectChunks parseJson scripts ≠ [] →
        ∃ l : List ChunkItem,
          l.Perm (collectChunks parseJson scripts) ∧ l.Sorted chunkLe ∧
            (extractDocsScripts parseJson scripts).content =
              some ((l.map ChunkItem.text).flatten)) ∧
    (∀ (parseJson : List Char → Option (List RawChunk))
        (scripts₁ scripts₂ : List (List Char)),
        scripts₁.Perm scripts₂ →
        (collectChunks parseJson scripts₁).Pairwise (fun a b => a.index ≠ b.index) →
        extractDocsScripts parseJson scripts₁ = extractDocsScripts parseJson scripts₂) ∧
    (extractDocsScripts exampleParse
        [str "DOCS_modelChunk = J2", str "DOCS_modelChunk = J0",
          str "DOCS_modelChunk = J1"]).content = some (str "abc") := by
  refine ⟨?_, ?_, ?_⟩
  · intro parseJson scripts hne
    refine ⟨List.insertionSort chunkLe (collectChunks parseJson scripts),
      List.perm_insertionSort _ _, List.sorted_insertionSort _ _, ?_⟩
    have hfilter : ¬ (scripts.filter isChunkScript).isEmpty := by
      intro hempty
      apply hne
      rw [collectChunks_eq_flatMap, List.isEmpty_iff.mp hempty]
      rfl
    have hchunks : ¬ (collectChunks parseJson scripts).isEmpty := by
      simpa [List.isEmpty_iff] using hne
    simp only [extractDocsScripts, hfilter, hchunks, if_neg, Bool.false_eq_true,
      not_false_eq_true, if_false]
  · intro parseJson scripts₁ scripts₂ hperm hpw
    have hchunks := collectChunks_perm parseJson hperm
    have hfiltereq : (scripts₁.filter isChunkScript).isEmpty =
        (scripts₂.filter isChunkScript).isEmpty :=
      (hperm.filter isChunkScript).isEmpty_eq
    have hchunkseq : (collectChunks parseJson scripts₁).isEmpty =
        (collectChunks parseJson scripts₂).isEmpty := hchunks.isEmpty_eq
    by_cases hf : (scripts₁.filter isChunkScript).isEmpty
    · simp only [extractDocsScripts, hf, ← hfiltereq, if_pos]
    · by_cases hc : (collectChunks parseJson scripts₁).isEmpty
      · simp only [extractDocsScripts, hf, ← hfiltereq, ← hchunkseq, hc,
          Bool.false_eq_true, if_false, if_pos]
      · have hsorteq :
            List.insertionSort chunkLe (collectChunks parseJson scripts₁) =
              List.insertionSort chunkLe (collectChunks parseJson scripts₂) := by
          have hpw₂ : (collectChunks parseJson scripts₂).Pairwise
              (fun a b => a.index ≠ b.index) :=
            (hchunks.pairwise_iff (fun h => h.symm)).mp hpw
          have hp : (List.insertionSort chunkLe
              (collectChunks parseJson scripts₁)).Perm
                (List.insertionSort chunkLe (collectChunks parseJson scripts₂)) :=
            ((List.perm_insertionSort _ _).trans hchunks).trans
              (List.perm_insertionSort _ _).symm
          have hs₁ : (List.insertionSort chunkLe
              (collectChunks parseJson scripts₁)).Sorted
                (fun a b => a.index < b.index) :=
            sorted_lt_of_sorted_le_of_ne (List.sorted_insertionSort _ _)
              (((List.perm_insertionSort chunkLe _).pairwise_iff
                (fun h => h.symm)).mpr hpw)
          have hs₂ : (List.insertionSort chunkLe
              (collectChunks parseJson scripts₂)).Sorted
                (fun a b => a.index < b.index) :=
            sorted_lt_of_sorted_le_of_ne (List.sorted_insertionSort _ _)
              (((List.perm_insertionSort chunkLe _).pairwise_iff
                (fun h => h.symm)).mpr hpw₂)
          exact List.eq_of_perm_of_sorted hp hs₁ hs₂
        simp only [extractDocsScripts, hf, ← hfiltereq, ← hchunkseq, hc,
          Bool.false_eq_true, if_false, hsorteq]
  · rfl

/-- Witness for C5: the general sorted-permutation clause applied at the
concrete three-chunk example. -/
theorem docs_extraction_sorts_chunks_witness :
    ∃ l : List ChunkItem,
      l.Perm (collectChunks exampleParse
        [str "DOCS_modelChunk = J2", str "DOCS_modelChunk = J0",
          str "DOCS_modelChunk = J1"]) ∧ l.Sorted chunkLe ∧
        (extractDocsScripts exampleParse
          [str "DOCS_modelChunk = J2", str "DOCS_modelChunk = J0",
            str "DOCS_modelChunk = J1"]).content =
          some ((l.map ChunkItem.text).flatten) :=
  docs_extraction_sorts_chunks.1 exampleParse
    [str "DOCS_modelChunk = J2", str "DOCS_modelChunk = J0",
      str "DOCS_modelChunk = J1"] (by decide)

/-! ### Shape lemmas for the strategy readiness and success paths -/

lemma tabReadiness_ready {env : TabEnv} {tabId : Nat} {url : String} {tab : Tab}
    (hget : env.getTab tabId = some tab) (hdisc : tab.discarded = false)
    (hnl : tab.status ≠ "loading") :
    tabReadiness env tabId url = .ok (.inr (tab.id.getD tabId, [])) := by
  simp [tabReadiness, hget, hdisc, hnl]

lemma tabReadiness_timeout {env : TabEnv} {tabId : Nat} {url : String} {tab : Tab}
    (hget : env.getTab tabId = some tab) (hdisc : tab.discarded = false)
    (hl : tab.status = "loading") (hw : env.wait (tab.id.getD tabId) = .timedOut) :
    tabReadiness env tabId url =
      .ok (.inr (tab.id.getD tabId, str LOADING_WARNING ++ [' '])) := by
  simp [tabReadiness, hget, hdisc, hl, hw]

lemma tabReadiness_completed {env : TabEnv} {tabId : Nat} {url : String} {tab : Tab}
    (hget : env.getTab tabId = some tab) (hdisc : tab.discarded = false)
    (hl : tab.status = "loading") (hw : env.wait (tab.id.getD tabId) = .completed) :
    tabReadiness env tabId url = .ok (.inr (tab.id.getD tabId, [])) := by
  simp [tabReadiness, hget, hdisc, hl, hw]

lemma defaultGetContent_success {env : TabEnv} {tabId : Nat} {url : String}
    {id : Nat} {warn result : List Char}
    (hr : tabReadiness env tabId url = .ok (.inr (id, warn)))
    (hpt : env.pageText id = .ok (some result)) (hne : trimChars result ≠ []) :
    defaultGetContent env tabId url =
      .ok (.text (warn ++ result.take MAX_CONTEXT_LENGTH)) := by
  simp [defaultGetContent, hr, defaultScriptResult, hpt, hne]

lemma docsGetContent_success {env : TabEnv} {tabId : Nat} {url : String}
    {id : Nat} {warn c : List Char} {r : DocsScriptValue}
    (hr : tabReadiness env tabId url = .ok (.inr (id, warn)))
    (hdv : env.docsValue id = .ok (some r)) (hc : r.content = some c)
    (hne : trimChars c ≠ []) :
    docsGetContent env tabId url = .ok (.text (warn ++ c.take MAX_CONTEXT_LENGTH)) := by
  simp [docsGetContent, hr, docsScriptResult, hdv, hc, hne]

lemma dropWhile_ws_replicate (n : Nat) :
    List.dropWhile Char.isWhitespace (List.replicate n 'a') =
      List.replicate n 'a' := by
  cases n with
  | zero => rfl
  | succ m =>
    rw [List.replicate_succ, List.dropWhile_cons]
    simp [(by decide : ('a').isWhitespace = false)]

lemma trimChars_replicate (n : Nat) :
    trimChars (List.replicate n 'a') = List.replicate n 'a' := by
  unfold trimChars
  rw [dropWhile_ws_replicate, List.reverse_replicate, dropWhile_ws_replicate,
    List.reverse_replicate]

/-! ### C4 -/

/-- A page whose rendered text is one character longer than the truncation
bound. -/
def longPage : List Char := List.replicate 250001 'a'

/-- A concrete environment: the tab is still loading, the bounded wait times
out, and extraction then returns `longPage`. -/
def envLongLoading : TabEnv where
  getTab := fun _ => some ⟨some 9, "https://example.com/long", "Long", "loading", false⟩
  wait := fun _ => .timedOut
  pageText := fun _ => .ok (some longPage)
  docsValue := fun _ => .ok none

/-- The fragment the default strategy returns in `envLongLoading`. -/
def fragLong : List Char := str LOADING_WARNING ++ [' '] ++ longPage.take MAX_CONTEXT_LENGTH

lemma length_str_loading_warning : (str LOADING_WARNING).length = 26 := by decide

lemma trimChars_longPage_ne : trimChars longPage ≠ [] := by
  unfold longPage
  rw [trimChars_replicate]
  intro h
  have h2 := congrArg List.length h
  rw [List.length_replicate, List.length_nil] at h2
  exact absurd h2 (by omega)

/-- C4 counterexample: in `envLongLoading` the default text strategy returns
the still-loading warning ahead of the truncated text, so the returned
fragment has 250027 characters — more than `MAX_CONTEXT_LENGTH` — refuting
the claim that every returned fragment has length at most 250000. -/
theorem truncation_law_counterexample :
    defaultGetContent envLongLoading 9 "https://example.com/long" =
        .ok (.text fragLong) ∧
      MAX_CONTEXT_LENGTH < fragLong.length := by
  constructor
  · have hr : tabReadiness envLongLoading 9 "https://example.com/long" =
        .ok (.inr (9, str LOADING_WARNING ++ [' '])) := by
      have := @tabReadiness_timeout envLongLoading 9 "https://example.com/long"
        ⟨some 9, "https://example.com/long", "Long", "loading", false⟩
        rfl rfl rfl rfl
      simpa using this
    have h := defaultGetContent_success hr
      (rfl : envLongLoading.pageText 9 = .ok (some longPage)) trimChars_longPage_ne
    simpa [fragLong, List.append_assoc] using h
  · have h2 : (longPage.take MAX_CONTEXT_LENGTH).length = 250000 := by
      rw [List.length_take]
      unfold longPage MAX_CONTEXT_LENGTH
      rw [List.length_replicate]
      omega
    unfold fragLong
    rw [List.length_append, List.length_append, h2, length_str_loading_warning,
      List.length_singleton]
    unfold MAX_CONTEXT_LENGTH
    omega

/-- C4 as amended: the extracted string itself is hard-truncated to its
250000-character prefix — the truncated body has length at most
`MAX_CONTEXT_LENGTH`, is a prefix of the original, and has length exactly
250000 whenever the original is longer — but the returned fragment may carry
the 27-character still-loading warning ahead of the truncated body, so the
fragment length bound is `MAX_CONTEXT_LENGTH + 27`; without a loading timeout
the fragment is exactly the truncated prefix.  Both the default text strategy
and the rich-document strategy are covered. -/
theorem truncation_amended :
    (∀ (env : TabEnv) (tabId : Nat) (url : String) (tab : Tab) (result : List Char),
        env.getTab tabId = some tab → tab.discarded = false →
        tab.status ≠ "loading" →
        env.pageText (tab.id.getD tabId) = .ok (some result) →
        trimChars result ≠ [] →
        defaultGetContent env tabId url =
            .ok (.text (result.take MAX_CONTEXT_LENGTH)) ∧
          (result.take MAX_CONTEXT_LENGTH).length ≤ MAX_CONTEXT_LENGTH ∧
          result.take MAX_CONTEXT_LENGTH <+: result ∧
          (MAX_CONTEXT_LENGTH < result.length →
            (result.take MAX_CONTEXT_LENGTH).length = MAX_CONTEXT_LENGTH)) ∧
    (∀ (env : TabEnv) (tabId : Nat) (url : String) (tab : Tab) (result : List Char),
        env.getTab tabId = some tab → tab.discarded = false →
        tab.status = "loading" → env.wait (tab.id.getD tabId) = .timedOut →
        env.pageText (tab.id.getD tabId) = .ok (some result) →
        trimChars result ≠ [] →
        defaultGetContent env tabId url =
            .ok (.text (str LOADING_WARNING ++ [' '] ++
              result.take MAX_CONTEXT_LENGTH)) ∧
          (str LOADING_WARNING ++ [' '] ++
            result.take MAX_CONTEXT_LENGTH).length ≤ MAX_CONTEXT_LENGTH + 27) ∧
    (∀ (env : TabEnv) (tabId : Nat) (url : String) (tab : Tab)
        (r : DocsScriptValue) (c : List Char),
        env.getTab tabId = some tab → tab.discarded = false →
        tab.status ≠ "loading" →
        env.docsValue (tab.id.getD tabId) = .ok (some r) → r.content = some c →
        trimChars c ≠ [] →
        docsGetContent env tabId url = .ok (.text (c.take MAX_CONTEXT_LENGTH)) ∧
          (c.take MAX_CONTEXT_LENGTH).length ≤ MAX_CONTEXT_LENGTH ∧
          c.take MAX_CONTEXT_LENGTH <+: c ∧
          (MAX_CONTEXT_LENGTH < c.length →
            (c.take MAX_CONTEXT_LENGTH).length = MAX_CONTEXT_LENGTH)) ∧
    (∀ (env : TabEnv) (tabId : Nat) (url : String) (tab : Tab)
        (r : DocsScriptValue) (c : List Char),
        env.getTab tabId = some tab → tab.discarded = false →
        tab.status = "loading" → env.wait (tab.id.getD tabId) = .timedOut →
        env.docsValue (tab.id.getD tabId) = .ok (some r) → r.content = some c →
        trimChars c ≠ [] →
        docsGetContent env tabId url =
            .ok (.text (str LOADING_WARNING ++ [' '] ++
              c.take MAX_CONTEXT_LENGTH)) ∧
          (str LOADING_WARNING ++ [' '] ++
            c.take MAX_CONTEXT_LENGTH).length ≤ MAX_CONTEXT_LENGTH + 27) := by
  have hbound : ∀ l : List Char,
      (str LOADING_WARNING ++ [' '] ++ l.take MAX_CONTEXT_LENGTH).length ≤
        MAX_CONTEXT_LENGTH + 27 := by
    intro l
    have := List.length_take_le MAX_CONTEXT_LENGTH l
    simp only [List.length_append, length_str_loading_warning, List.length_singleton]
    omega
  refine ⟨?_, ?_, ?_, ?_⟩
  · intro env tabId url tab result hget hdisc hnl hpt hne
    refine ⟨?_, List.length_take_le _ _, List.take_prefix _ _, ?_⟩
    · simpa using defaultGetContent_success (tabReadiness_ready hget hdisc hnl) hpt hne
    · intro hlt
      rw [List.length_take]
      omega
  · intro env tabId url tab result hget hdisc hl hw hpt hne
    refine ⟨?_, hbound result⟩
    simpa [List.append_assoc] using
      defaultGetContent_success (tabReadiness_timeout hget hdisc hl hw) hpt hne
  · intro env tabId url tab r c hget hdisc hnl hdv hc hne
    refine ⟨?_, List.length_take_le _ _, List.take_prefix _ _, ?_⟩
    · simpa using docsGetContent_success (tabReadiness_ready hget hdisc hnl) hdv hc hne
    · intro hlt
      rw [List.length_take]
      omega
  · intro env tabId url tab r c hget hdisc hl hw hdv hc hne
    refine ⟨?_, hbound c⟩
    simpa [List.append_assoc] using
      docsGetContent_success (tabReadiness_timeout hget hdisc hl hw) hdv hc hne

/-- Witness for the amended C4: a completed tab with the five-character page
text `hello` comes back whole, and the loading-timeout clause at the same
page text carries the warning. -/
theorem truncation_amended_witness :
    defaultGetContent
        ⟨fun _ => some ⟨some 3, "https://a.com", "A", "complete", false⟩,
          fun _ => .completed, fun _ => .ok (some (str "hello")),
          fun _ => .ok none⟩ 3 "https://a.com" =
      .ok (.text ((str "hello").take MAX_CONTEXT_LENGTH)) := by
  have h := (truncation_amended.1
    ⟨fun _ => some ⟨some 3, "https://a.com", "A", "complete", false⟩,
      fun _ => .completed, fun _ => .ok (some (str "hello")),
      fun _ => .ok none⟩ 3 "https://a.com"
    ⟨some 3, "https://a.com", "A", "complete", false⟩ (str "hello")
    rfl rfl (by decide) rfl (by decide)).1
  simpa using h

/-! ### C9 -/

/-- C9: for a tab in `loading` state, a timed-out completion wait yields a
fragment carrying the still-loading warning marker followed by the
best-effort (truncated) extracted text, while a wait that completes within
the timeout yields the truncated extracted text with no warning attached.
Both the default text strategy and the rich-document strategy behave this
way. -/
theorem loading_wait_behavior :
    (∀ (env : TabEnv) (tabId : Nat) (url : String) (tab : Tab) (result : List Char),
        env.getTab tabId = some tab → tab.discarded = false →
        tab.status = "loading" → env.wait (tab.id.getD tabId) = .timedOut →
        env.pageText (tab.id.getD tabId) = .ok (some result) →
        trimChars result ≠ [] →
        defaultGetContent env tabId url =
            .ok (.text (str LOADING_WARNING ++ [' '] ++
              result.take MAX_CONTEXT_LENGTH)) ∧
          str LOADING_WARNING <+:
            (str LOADING_WARNING ++ [' '] ++ result.take MAX_CONTEXT_LENGTH)) ∧
    (∀ (env : TabEnv) (tabId : Nat) (url : String) (tab : Tab) (result : List Char),
        env.getTab tabId = some tab → tab.discarded = false →
        tab.status = "loading" → env.wait (tab.id.getD tabId) = .completed →
        env.pageText (tab.id.getD tabId) = .ok (some result) →
        trimChars result ≠ [] →
        defaultGetContent env tabId url =
          .ok (.text (result.take MAX_CONTEXT_LENGTH))) ∧
    (∀ (env : TabEnv) (tabId : Nat) (url : String) (tab : Tab)
        (r : DocsScriptValue) (c : List Char),
        env.getTab tabId = some tab → tab.discarded = false →
        tab.status = "loading" → env.wait (tab.id.getD tabId) = .timedOut →
        env.docsValue (tab.id.getD tabId) = .ok (some r) → r.content = some c →
        trimChars c ≠ [] →
        docsGetContent env tabId url =
            .ok (.text (str LOADING_WARNING ++ [' '] ++
              c.take MAX_CONTEXT_LENGTH))) ∧
    (∀ (env : TabEnv) (tabId : Nat) (url : String) (tab : Tab)
        (r : DocsScriptValue) (c : List Char),
        env.getTab tabId = some tab → tab.discarded = false →
        tab.status = "loading" → env.wait (tab.id.getD tabId) = .completed →
        env.docsValue (tab.id.getD tabId) = .ok (some r) → r.content = some c →
        trimChars c ≠ [] →
        docsGetContent env tabId url = .ok (.text (c.take MAX_CONTEXT_LENGTH))) := by
  refine ⟨?_, ?_, ?_, ?_⟩
  · intro env tabId url tab result hget hdisc hl hw hpt hne
    constructor
    · simpa [List.append_assoc] using
        defaultGetContent_success (tabReadiness_timeout hget hdisc hl hw) hpt hne
    · exact List.prefix_append _ _
  · intro env tabId url tab result hget hdisc hl hw hpt hne
    simpa using
      defaultGetContent_success (tabReadiness_completed hget hdisc hl hw) hpt hne
  · intro env tabId url tab r c hget hdisc hl hw hdv hc hne
    simpa [List.append_assoc] using
      docsGetContent_success (tabReadiness_timeout hget hdisc hl hw) hdv hc hne
  · intro env tabId url tab r c hget hdisc hl hw hdv hc hne
    simpa using
      docsGetContent_success (tabReadiness_completed hget hdisc hl hw) hdv hc hne

/-- Witness for C9: a loading tab with page text `hi` under a timed-out wait
carries the warning, and under a completed wait comes back bare. -/
theorem loading_wait_behavior_witness :
    defaultGetContent
        ⟨fun _ => some ⟨some 5, "https://a.com", "A", "loading", false⟩,
          fun _ => .timedOut, fun _ => .ok (some (str "hi")), fun _ => .ok none⟩
        5 "https://a.com" =
      .ok (.text (str LOADING_WARNING ++ [' '] ++
        (str "hi").take MAX_CONTEXT_LENGTH)) ∧
    defaultGetContent
        ⟨fun _ => some ⟨some 5, "https://a.com", "A", "loading", false⟩,
          fun _ => .completed, fun _ => .ok (some (str "hi")), fun _ => .ok none⟩
        5 "https://a.com" =
      .ok (.text ((str "hi").take MAX_CONTEXT_LENGTH)) := by
  constructor
  · exact (loading_wait_behavior.1
      ⟨fun _ => some ⟨some 5, "https://a.com", "A", "loading", false⟩,
        fun _ => .timedOut, fun _ => .ok (some (str "hi")), fun _ => .ok none⟩
      5 "https://a.com" ⟨some 5, "https://a.com", "A", "loading", false⟩
      (str "hi") rfl rfl rfl rfl rfl (by decide)).1
  · exact loading_wait_behavior.2.1
      ⟨fun _ => some ⟨some 5, "https://a.com", "A", "loading", false⟩,
        fun _ => .completed, fun _ => .ok (some (str "hi")), fun _ => .ok none⟩
      5 "https://a.com" ⟨some 5, "https://a.com", "A", "loading", false⟩
      (str "hi") rfl rfl rfl rfl rfl (by decide)

/-! ### Nonemptiness of every text fragment the resolver can produce -/

lemma take_max_ne_nil {l : List Char} (h : trimChars l ≠ []) :
    l.take MAX_CONTEXT_LENGTH ≠ [] := by
  have hl : l ≠ [] := by
    intro hnil
    exact h (by rw [hnil]; rfl)
  rw [Ne, List.take_eq_nil_iff]
  rintro (hmax | hnil)
  · exact absurd hmax (by unfold MAX_CONTEXT_LENGTH; omega)
  · exact hl hnil

lemma tabReadiness_inl_text {env : TabEnv} {tabId : Nat} {url : String}
    {part : ContentPart} (h : tabReadiness env tabId url = .ok (.inl part)) :
    ∃ d, part = .text d ∧ d ≠ [] := by
  unfold tabReadiness at h
  split at h
  · simp only [Except.ok.injEq, Sum.inl.injEq] at h
    exact ⟨_, h.symm, by simp [(by decide : str TAB_NOT_FOUND ≠ [])]⟩
  · split at h
    · simp only [Except.ok.injEq, Sum.inl.injEq] at h
      exact ⟨_, h.symm, by simp [(by decide : str TAB_DISCARDED ≠ [])]⟩
    · split at h
      · split at h <;> simp at h
      · simp at h

lemma defaultScriptResult_text_ne_nil {env : TabEnv} {id : Nat} {url : String}
    {warn d : List Char} (h : defaultScriptResult env id url warn = .text d) :
    d ≠ [] := by
  unfold defaultScriptResult at h
  split at h
  · split at h
    · simp only [ContentPart.text.injEq] at h
      rw [← h]; decide
    · simp only [ContentPart.text.injEq] at h
      rw [← h]
      simp [(by decide : str ERROR_PREF ≠ [])]
  · simp only [ContentPart.text.injEq] at h
    rw [← h]; decide
  · split at h
    · simp only [ContentPart.text.injEq] at h
      rw [← h]; decide
    · rename_i result htrim
      simp only [ContentPart.text.injEq] at h
      rw [← h]
      simp [take_max_ne_nil htrim]

lemma docsDebugMsg_ne_nil (v : Option DocsScriptValue) :
    str NO_CONTENT_WARNING ++ docsDebugMsg v ≠ [] := by
  simp [(by decide : str NO_CONTENT_WARNING ≠ [])]

lemma docsScriptResult_text_ne_nil {env : TabEnv} {id : Nat} {url : String}
    {warn d : List Char} (h : docsScriptResult env id url warn = .text d) :
    d ≠ [] := by
  unfold docsScriptResult at h
  split at h
  · split at h
    · simp only [ContentPart.text.injEq] at h
      rw [← h]; decide
    · simp only [ContentPart.text.injEq] at h
      rw [← h]
      simp [(by decide : str ERROR_PREF ≠ [])]
  · simp only [ContentPart.text.injEq] at h
    rw [← h]
    exact docsDebugMsg_ne_nil none
  · rename_i r heq
    split at h
    · simp only [ContentPart.text.injEq] at h
      rw [← h]
      exact docsDebugMsg_ne_nil (some r)
    · rename_i c hc
      split at h
      · simp only [ContentPart.text.injEq] at h
        rw [← h]
        exact docsDebugMsg_ne_nil (some r)
      · rename_i htrim
        simp only [ContentPart.text.injEq] at h
        rw [← h]
        simp [take_max_ne_nil htrim]

lemma defaultGetContent_ok_text_ne_nil {env : TabEnv} {tabId : Nat} {url : String}
    {d : List Char} (h : defaultGetContent env tabId url = .ok (.text d)) :
    d ≠ [] := by
  unfold defaultGetContent at h
  split at h
  · simp at h
  · rename_i part heq
    simp only [Except.ok.injEq] at h
    obtain ⟨d', hd', hne⟩ := tabReadiness_inl_text heq
    rw [h] at hd'
    cases hd'
    exact hne
  · simp only [Except.ok.injEq] at h
    exact defaultScriptResult_text_ne_nil h

lemma docsGetContent_ok_text_ne_nil {env : TabEnv} {tabId : Nat} {url : String}
    {d : List Char} (h : docsGetContent env tabId url = .ok (.text d)) :
    d ≠ [] := by
  unfold docsGetContent at h
  split at h
  · simp at h
  · rename_i part heq
    simp only [Except.ok.injEq] at h
    obtain ⟨d', hd', hne⟩ := tabReadiness_inl_text heq
    rw [h] at hd'
    cases hd'
    exact hne
  · simp only [Except.ok.injEq] at h
    exact docsScriptResult_text_ne_nil h

lemma readContent_text_ne_nil {env : TabEnv} {tabId : Nat} {url : String}
    {d : List Char} (h : readContent env tabId url = .text d) : d ≠ [] := by
  unfold readContent at h
  by_cases hres : isRestrictedURL url
  · rw [if_pos hres] at h
    simp only [ContentPart.text.injEq] at h
    rw [← h]
    simp [(by decide : str RESTRICTED_URL ≠ [])]
  · rw [if_neg hres] at h
    by_cases hyt : youTubeCanHandle url
    · simp only [hyt, if_pos] at h
      simp [youTubeGetContent] at h
    · by_cases hdocs : googleDocsCanHandle url
      · simp only [hyt, hdocs, Bool.false_eq_true, if_false, if_pos] at h
        cases hdc : docsGetContent env tabId url with
        | ok part =>
          rw [hdc] at h
          have h' : part = .text d := h
          exact docsGetContent_ok_text_ne_nil (h' ▸ hdc)
        | error m =>
          rw [hdc] at h
          have h' : ContentPart.text
              (str ERROR_PREF ++ [' '] ++ url.data ++ str ": " ++ m ++ str ")") =
                .text d := h
          simp only [ContentPart.text.injEq] at h'
          rw [← h']
          simp [(by decide : str ERROR_PREF ≠ [])]
      · simp only [hyt, hdocs, Bool.false_eq_true, if_false] at h
        cases hdc : defaultGetContent env tabId url with
        | ok part =>
          rw [hdc] at h
          have h' : part = .text d := h
          exact defaultGetContent_ok_text_ne_nil (h' ▸ hdc)
        | error m =>
          rw [hdc] at h
          have h' : ContentPart.text
              (str ERROR_PREF ++ [' '] ++ url.data ++ str ": " ++ m ++ str ")") =
                .text d := h
          simp only [ContentPart.text.injEq] at h'
          rw [← h']
          simp [(by decide : str ERROR_PREF ≠ [])]

/-! ### C6 -/

/-- C6: `readContent` is total (returns a `ContentPart`, never throws) and
recovers every failure into a non-empty plain-text diagnostic: a restricted
url returns the restricted diagnostic without consulting the tab platform at
all; for an unhandled-by-video url, a missing tab returns the not-found
diagnostic, a discarded tab the discarded diagnostic, a non-timeout wait
failure or a script exception the error diagnostic (with the policy-block
message recognised specially), and an empty or whitespace-only extraction the
no-content diagnostic; and every text fragment it ever returns is
non-empty. -/
theorem readContent_diagnostics :
    (∀ (env env' : TabEnv) (tabId tabId' : Nat) (url : String),
        isRestrictedURL url = true →
        readContent env tabId url =
            .text (str RESTRICTED_URL ++ str ": " ++ url.data) ∧
          readContent env tabId url = readContent env' tabId' url) ∧
    (∀ (env : TabEnv) (tabId : Nat) (url : String),
        isRestrictedURL url = false → youTubeCanHandle url = false →
        env.getTab tabId = none →
        readContent env tabId url =
          .text (str TAB_NOT_FOUND ++ str ": " ++ url.data)) ∧
    (∀ (env : TabEnv) (tabId : Nat) (url : String) (tab : Tab),
        isRestrictedURL url = false → youTubeCanHandle url = false →
        env.getTab tabId = some tab → tab.discarded = true →
        readContent env tabId url =
          .text (str TAB_DISCARDED ++ str ": " ++ url.data)) ∧
    (∀ (env : TabEnv) (tabId : Nat) (url : String) (tab : Tab) (m : List Char),
        isRestrictedURL url = false → youTubeCanHandle url = false →
        env.getTab tabId = some tab → tab.discarded = false →
        tab.status = "loading" → env.wait (tab.id.getD tabId) = .failed m →
        readContent env tabId url =
          .text (str ERROR_PREF ++ [' '] ++ url.data ++ str ": " ++ m ++ str ")")) ∧
    (∀ (env : TabEnv) (tabId : Nat) (url : String) (tab : Tab) (m : List Char),
        isRestrictedURL url = false → youTubeCanHandle url = false →
        googleDocsCanHandle url = false →
        env.getTab tabId = some tab → tab.discarded = false →
        tab.status ≠ "loading" →
        env.pageText (tab.id.getD tabId) = .error m →
        readContent env tabId url =
          .text (if jsIncludes m (str "ExtensionsSettings policy") then
              str RESTRICTED_URL
            else str ERROR_PREF ++ [' '] ++ url.data ++ str ": " ++ m ++ str ")")) ∧
    (∀ (env : TabEnv) (tabId : Nat) (url : String) (tab : Tab),
        isRestrictedURL url = false → youTubeCanHandle url = false →
        googleDocsCanHandle url = false →
        env.getTab tabId = some tab → tab.discarded = false →
        tab.status ≠ "loading" →
        (env.pageText (tab.id.getD tabId) = .ok none ∨
          ∃ r, env.pageText (tab.id.getD tabId) = .ok (some r) ∧ trimChars r = []) →
        readContent env tabId url = .text (str NO_CONTENT_WARNING)) ∧
    (∀ (env : TabEnv) (tabId : Nat) (url : String) (d : List Char),
        readContent env tabId url = .text d → d ≠ []) := by
  refine ⟨?_, ?_, ?_, ?_, ?_, ?_, ?_⟩
  · intro env env' tabId tabId' url hres
    constructor
    · simp [readContent, hres]
    · simp [readContent, hres]
  · intro env tabId url hres hyt hget
    by_cases hdocs : googleDocsCanHandle url
    · simp [readContent, hres, hyt, hdocs, docsGetContent, tabReadiness, hget]
    · simp [readContent, hres, hyt, hdocs, defaultGetContent, tabReadiness, hget]
  · intro env tabId url tab hres hyt hget hdisc
    by_cases hdocs : googleDocsCanHandle url
    · simp [readContent, hres, hyt, hdocs, docsGetContent, tabReadiness, hget, hdisc]
    · simp [readContent, hres, hyt, hdocs, defaultGetContent, tabReadiness, hget,
        hdisc]
  · intro env tabId url tab m hres hyt hget hdisc hl hw
    by_cases hdocs : googleDocsCanHandle url
    · simp [readContent, hres, hyt, hdocs, docsGetContent, tabReadiness, hget,
        hdisc, hl, hw]
    · simp [readContent, hres, hyt, hdocs, defaultGetContent, tabReadiness, hget,
        hdisc, hl, hw]
  · intro env tabId url tab m hres hyt hdocs hget hdisc hnl hpt
    simp only [readContent, hres, hyt, hdocs, defaultGetContent, tabReadiness, hget,
      hdisc, hnl, defaultScriptResult, hpt, Bool.false_eq_true, if_false, ite_false]
    split <;> rfl
  · intro env tabId url tab hres hyt hdocs hget hdisc hnl hpt
    rcases hpt with hpt | ⟨r, hpt, htrim⟩
    · simp [readContent, hres, hyt, hdocs, defaultGetContent, tabReadiness, hget,
        hdisc, hnl, defaultScriptResult, hpt]
    · simp [readContent, hres, hyt, hdocs, defaultGetContent, tabReadiness, hget,
        hdisc, hnl, defaultScriptResult, hpt, htrim]
  · intro env tabId url d h
    exact readContent_text_ne_nil h

/-- Witness for C6: the restricted clause at `chrome://settings` (under two
different environments), the missing-tab clause, and the totality clause, all
at concrete inputs. -/
theorem readContent_diagnostics_witness :
    readContent
        ⟨fun _ => none, fun _ => .completed, fun _ => .ok none, fun _ => .ok none⟩
        1 "chrome://settings" =
      .text (str RESTRICTED_URL ++ str ": " ++ ("chrome://settings").data) ∧
    readContent
        ⟨fun _ => none, fun _ => .completed, fun _ => .ok none, fun _ => .ok none⟩
        1 "https://a.com" =
      .text (str TAB_NOT_FOUND ++ str ": " ++ ("https://a.com").data) := by
  constructor
  · exact (readContent_diagnostics.1
      ⟨fun _ => none, fun _ => .completed, fun _ => .ok none, fun _ => .ok none⟩
      ⟨fun _ => none, fun _ => .completed, fun _ => .ok none, fun _ => .ok none⟩
      1 1 "chrome://settings" (by decide)).1
  · exact readContent_diagnostics.2.1
      ⟨fun _ => none, fun _ => .completed, fun _ => .ok none, fun _ => .ok none⟩
      1 "https://a.com" (by decide) (by decide) rfl

/-! ### C8 -/

lemma getAllContent_eq_flatMap (env : TabEnv) (pinnedTabs : List TabCtx) :
    getAllContent env pinnedTabs =
      pinnedTabs.flatMap (fun tab =>
        [.text (pinnedHeader tab), readContent env tab.tabId tab.url]) := by
  unfold getAllContent
  suffices h : ∀ acc : List ContentPart,
      pinnedTabs.foldl
          (fun allParts tab =>
            allParts ++ [.text (pinnedHeader tab), readContent env tab.tabId tab.url])
          acc =
        acc ++ pinnedTabs.flatMap (fun tab =>
          [.text (pinnedHeader tab), readContent env tab.tabId tab.url]) by
    simpa using h []
  induction pinnedTabs with
  | nil => intro acc; simp
  | cons t rest ih => intro acc; simp [ih, List.append_assoc]

/-- C8: `getAllContent` returns exactly two fragments per pinned entry, in pin
order — the labeled text header for the entry followed by the resolved
fragment — so `N` pinned tabs yield `2N` fragments; resolution always
produces a fragment (`readContent` is total), so the failure of one tab never
suppresses the fragments of the others.  The two-tab instance of the claim is
stated explicitly. -/
theorem getAllContent_header_pairs :
    (∀ (env : TabEnv) (pinnedTabs : List TabCtx),
        (getAllContent env pinnedTabs).length = 2 * pinnedTabs.length) ∧
    (∀ (env : TabEnv) (pinnedTabs : List TabCtx) (i : Nat) (t : TabCtx),
        pinnedTabs[i]? = some t →
        (getAllContent env pinnedTabs)[2 * i]? =
            some (.text (pinnedHeader t)) ∧
          (getAllContent env pinnedTabs)[2 * i + 1]? =
            some (readContent env t.tabId t.url)) ∧
    (∀ (env : TabEnv) (A B : TabCtx),
        getAllContent env [A, B] =
          [.text (pinnedHeader A), readContent env A.tabId A.url,
            .text (pinnedHeader B), readContent env B.tabId B.url]) := by
  refine ⟨?_, ?_, ?_⟩
  · intro env pinnedTabs
    rw [getAllContent_eq_flatMap]
    induction pinnedTabs with
    | nil => rfl
    | cons t rest ih =>
      simp only [List.flatMap_cons, List.cons_append, List.nil_append,
        List.length_cons, ih, List.length_flatMap] at *
      omega
  · intro env pinnedTabs
    induction pinnedTabs with
    | nil => intro i t h; simp at h
    | cons hd rest ih =>
      intro i t h
      cases i with
      | zero =>
        simp only [List.getElem?_cons_zero, Option.some.injEq] at h
        subst h
        rw [getAllContent_eq_flatMap]
        constructor <;> simp [List.flatMap_cons]
      | succ j =>
        simp only [List.getElem?_cons_succ] at h
        have hj := ih j t h
        rw [getAllContent_eq_flatMap] at hj ⊢
        have h2a : 2 * (j + 1) = (2 * j + 1) + 1 := by omega
        rw [h2a]
        simp only [List.flatMap_cons, List.cons_append, List.nil_append,
          List.getElem?_cons_succ]
        exact hj
  · intro env A B
    rw [getAllContent_eq_flatMap]
    rfl

/-- Witness for C8: the pairing clause applied at a concrete one-entry pin
list and environment. -/
theorem getAllContent_header_pairs_witness :
    (getAllContent
        ⟨fun _ => none, fun _ => .completed, fun _ => .ok none, fun _ => .ok none⟩
        [⟨1, "https://a.com", "A"⟩])[0]? =
        some (.text (pinnedHeader ⟨1, "https://a.com", "A"⟩)) ∧
      (getAllContent
        ⟨fun _ => none, fun _ => .completed, fun _ => .ok none, fun _ => .ok none⟩
        [⟨1, "https://a.com", "A"⟩])[1]? =
        some (readContent
          ⟨fun _ => none, fun _ => .completed, fun _ => .ok none, fun _ => .ok none⟩
          1 "https://a.com") := by
  have h := getAllContent_header_pairs.2.1
    ⟨fun _ => none, fun _ => .completed, fun _ => .ok none, fun _ => .ok none⟩
    [⟨1, "https://a.com", "A"⟩] 0 ⟨1, "https://a.com", "A"⟩ rfl
  simpa using h

end Sidebar
